import Mathlib

/-!
# Floppy bird: frame update, game modes and leaderboard

A shallow embedding of `src/script.js`.  The module-level variables of the script
(`state`, `frame`, `pipes`, `score`, `best`, `spawnInterval`, `pipeSpeed`, `gap`, the
mutable fields of `bird`, the `flappy_leaderboard` entry of `localStorage` and the
`hidden` class of the save-score box) are gathered in the record `Game`; every
function of the script becomes a function on `Game`.

Numbers are exact rationals: the script's constants (`0.55`, `-9.5`, `2.2`, ...) are
the rationals they denote.  `Math.random()` is an argument `r`, `Math.sin` an
argument `sin`, and `new Date()` an argument `now` (milliseconds).  Sound and
drawing calls change none of the variables above and are left out.
-/

namespace FloppyBird

/-! ## Constants -/

/-- Canvas width, `const W = canvas.width = 480`. -/
def W : ℚ := 480

/-- Canvas height, `const H = canvas.height = 700`. -/
def H : ℚ := 700

/-- The function `Math.round`: the nearest integer, halves going up. -/
def mathRound (x : ℚ) : ℤ := ⌊x + 1 / 2⌋

/-- The field `bird.x`, `Math.round(W * 0.25)`; never assigned afterwards. -/
def bird_x : ℚ := mathRound (W * (25 / 100))

/-- The field `bird.w`; never assigned. -/
def bird_w : ℚ := 34

/-- The field `bird.h`; never assigned. -/
def bird_h : ℚ := 24

/-- The field `bird.gravity`; never assigned. -/
def bird_gravity : ℚ := 55 / 100

/-- The field `bird.flapPower`; never assigned. -/
def bird_flapPower : ℚ := -(95 / 10)

/-- Width of a pipe, `const pipeW = 78`. -/
def pipeW : ℚ := 78

/-! ## Data model -/

/-- Values of the variable `state`. -/
inductive Mode where
  | menu
  | playing
  | crashed
  | paused
  deriving DecidableEq, Repr

/-- The mutable fields of the object `bird`. -/
structure Bird where
  y : ℚ
  vy : ℚ
  rotation : ℚ
  deriving DecidableEq, Repr

/-- An element of `pipes`. -/
structure Pipe where
  x : ℚ
  top : ℚ
  bottom : ℚ
  passed : Bool
  deriving DecidableEq, Repr

/-- A rectangle `{x, y, w, h}` as passed to `rectsOverlap`. -/
structure Rect where
  x : ℚ
  y : ℚ
  w : ℚ
  h : ℚ
  deriving DecidableEq, Repr

/-- A leaderboard record `{name, score, date}`; `date` is the time denoted by the
stored ISO string, in milliseconds, as `new Date(date)` reads it in the comparator. -/
structure Entry where
  name : String
  score : ℤ
  date : ℤ
  deriving DecidableEq, Repr

/-- One row of the table `difficulties`. -/
structure Difficulty where
  gap : ℚ
  speed : ℚ
  spawn : ℕ
  deriving DecidableEq, Repr

/-- Keys of the table `difficulties`. -/
inductive DifficultyName where
  | easy
  | normal
  | hard
  deriving DecidableEq, Repr

/-- The table `difficulties`. -/
def difficulties : DifficultyName → Difficulty
  | .easy => { gap := 190, speed := 18 / 10, spawn := 125 }
  | .normal => { gap := 160, speed := 22 / 10, spawn := 110 }
  | .hard => { gap := 140, speed := 28 / 10, spawn := 95 }

/-- The script's mutable variables. -/
structure Game where
  state : Mode
  frame : ℕ
  pipes : List Pipe
  score : ℤ
  best : ℤ
  spawnInterval : ℕ
  pipeSpeed : ℚ
  gap : ℚ
  bird : Bird
  leaderboard : List Entry
  saveScoreHidden : Bool
  deriving DecidableEq, Repr

/-- The `change` listener of the difficulty selector. -/
def setDifficulty (d : DifficultyName) (s : Game) : Game :=
  { s with
    gap := (difficulties d).gap
    pipeSpeed := (difficulties d).speed
    spawnInterval := (difficulties d).spawn }

/-! ## Game functions -/

/-- The function `startGame`. -/
def startGame (s : Game) : Game :=
  { s with
    state := .playing
    frame := 0
    pipes := []
    score := 0
    bird := { y := mathRound (H * (4 / 10)), vy := 0, rotation := 0 }
    saveScoreHidden := true }

/-- The function `restartToMenu`. -/
def restartToMenu (s : Game) : Game :=
  let s := if s.score > s.best then { s with best := s.score } else s
  let s := { s with state := .menu }
  let leaderboard := s.leaderboard
  let lowestTop : ℤ :=
    if leaderboard.length < 5 then 0
    else ((leaderboard.get? (leaderboard.length - 1)).map Entry.score).getD 0
  if s.score > lowestTop ∨ leaderboard.length < 5 then
    { s with saveScoreHidden := false }
  else
    { s with saveScoreHidden := true }

/-- The function `togglePause`. -/
def togglePause (s : Game) : Game :=
  if s.state = .playing then { s with state := .paused }
  else if s.state = .paused then { s with state := .playing }
  else s

/-- The function `flap`. -/
def flap (s : Game) : Game :=
  let s := if s.state = .menu then startGame s else s
  if s.state = .playing then
    { s with bird := { s.bird with vy := bird_flapPower } }
  else if s.state = .crashed then
    restartToMenu s
  else if s.state = .paused then
    { s with state := .playing }
  else s

/-- The function `spawnPipe`, with `r` the value of `Math.random()`. -/
def spawnPipe (r : ℚ) (s : Game) : Game :=
  let topH : ℚ := mathRound (r * (H - s.gap - 200) + 60)
  { s with
    pipes := s.pipes ++ [{ x := W + 40, top := topH, bottom := H - topH - s.gap, passed := false }] }

/-- The function `rectsOverlap`. -/
def rectsOverlap (a b : Rect) : Bool :=
  !(decide (a.x + a.w < b.x) || decide (a.x > b.x + b.w) ||
    decide (a.y + a.h < b.y) || decide (a.y > b.y + b.h))

/-- The rectangle `topBox` built for a pipe in `update`. -/
def topBox (p : Pipe) : Rect := { x := p.x, y := 0, w := pipeW, h := p.top }

/-- The rectangle `bottomBox` built for a pipe in `update`. -/
def bottomBox (p : Pipe) : Rect := { x := p.x, y := H - p.bottom, w := pipeW, h := p.bottom }

/-- The rectangle `birdBox` built in `update`. -/
def birdBox (b : Bird) : Rect := { x := bird_x, y := b.y, w := bird_w, h := bird_h }

/-- The loop `for (let i = pipes.length - 1; i >= 0; i--)` of `update`: the first
argument is `i + 1`, the pair is `(pipes, score)`. -/
def pipeLoop (pipeSpeed : ℚ) : ℕ → List Pipe × ℤ → List Pipe × ℤ
  | 0, acc => acc
  | i + 1, (pipes, score) =>
    match pipes.get? i with
    | none => pipeLoop pipeSpeed i (pipes, score)
    | some p =>
      let p := { p with x := p.x - pipeSpeed }
      let counts : Bool := !p.passed && decide (p.x + pipeW < bird_x)
      let p := if counts then { p with passed := true } else p
      let score := if counts then score + 1 else score
      let pipes := if p.x + pipeW < -40 then pipes.eraseIdx i else pipes.set i p
      pipeLoop pipeSpeed i (pipes, score)

/-- Lines 360-363 of `update`: gravity, the fall-speed cap, the move, the rotation. -/
def physicsStep (s : Game) : Game :=
  let vy := min (s.bird.vy + bird_gravity) 12
  { s with bird := { y := s.bird.y + vy, vy := vy, rotation := max (-30) (min 90 (vy * 3 + 5)) } }

/-- Line 365 of `update`: `if (frame % spawnInterval === 0) spawnPipe()`. -/
def spawnStep (r : ℚ) (s : Game) : Game :=
  if s.frame % s.spawnInterval = 0 then spawnPipe r s else s

/-- Lines 367-376 of `update`: the pipe loop run from the last index down. -/
def pipesStep (s : Game) : Game :=
  let res := pipeLoop s.pipeSpeed s.pipes.length (s.pipes, s.score)
  { s with pipes := res.1, score := res.2 }

/-- Lines 378-387 of `update`: the test of the bird against every pipe. -/
def pipeCollisionStep (s : Game) : Game :=
  if s.pipes.any (fun p => rectsOverlap (birdBox s.bird) (topBox p) ||
      rectsOverlap (birdBox s.bird) (bottomBox p)) then
    { s with state := .crashed }
  else s

/-- Lines 389-394 of `update`: the ground line. -/
def groundStep (s : Game) : Game :=
  if s.bird.y + bird_h ≥ H - 120 then
    { s with bird := { s.bird with y := H - 120 - bird_h }, state := .crashed }
  else s

/-- Line 395 of `update`: the top boundary. -/
def ceilingStep (s : Game) : Game :=
  if s.bird.y < -20 then { s with bird := { s.bird with y := -20, vy := 0 } } else s

/-- The function `update`; `sin` stands for `Math.sin`, `r` for `Math.random()`. -/
def update (sin : ℚ → ℚ) (r : ℚ) (s : Game) : Game :=
  let s := { s with frame := s.frame + 1 }
  match s.state with
  | .playing =>
    ceilingStep (groundStep (pipeCollisionStep (pipesStep (spawnStep r (physicsStep s)))))
  | .menu =>
    { s with
      bird := { s.bird with
        y := mathRound (H * (4 / 10) + sin (s.frame * (8 / 100)) * 10)
        rotation := sin (s.frame * (8 / 100)) * 6 } }
  | .crashed =>
    if s.bird.y + bird_h < H - 120 then
      { s with
        bird := { y := s.bird.y + (s.bird.vy + bird_gravity)
                  vy := s.bird.vy + bird_gravity
                  rotation := min 90 (s.bird.rotation + 6) } }
    else s
  | .paused => s

/-! ## Leaderboard -/

/-- The comparator passed to `list.sort` in `addToLeaderboard`:
`b.score - a.score || new Date(b.date) - new Date(a.date)`. -/
def compareEntries (a b : Entry) : ℤ :=
  if b.score - a.score ≠ 0 then b.score - a.score else b.date - a.date

/-- The order `compareEntries` induces: `a` may stand before `b`. -/
def entryLE (a b : Entry) : Prop := compareEntries a b ≤ 0

instance : DecidableRel entryLE := fun a b => by unfold entryLE; infer_instance

/-- The call `list.sort(cmp)`: `Array.prototype.sort` is a stable sort, so for this
comparator its result is the one of a stable insertion sort. -/
def sortEntries (list : List Entry) : List Entry := list.insertionSort entryLE

/-- The function `addToLeaderboard(name, scoreVal)`; `now` is the time `new Date()`
returns. -/
def addToLeaderboard (name : String) (scoreVal : ℤ) (now : ℤ) (s : Game) : Game :=
  let name := if name = "" then "Anon" else name
  let list := s.leaderboard ++ [{ name := name.take 12, score := scoreVal, date := now }]
  let list := sortEntries list
  let top := list.take 20
  { s with leaderboard := top }

/-! ## Inputs and runs -/

/-- The inputs that drive the game: the flap action, the pause toggle, and one frame
of the animation loop with the random draw it may consume. -/
inductive Input where
  | flap
  | togglePause
  | update (r : ℚ)
  deriving DecidableEq, Repr

/-- One input applied to the game. -/
def step (sin : ℚ → ℚ) (s : Game) : Input → Game
  | .flap => flap s
  | .togglePause => togglePause s
  | .update r => update sin r s

/-- A sequence of inputs applied in order. -/
def run (sin : ℚ → ℚ) (inputs : List Input) (s : Game) : Game :=
  inputs.foldl (step sin) s

/-! ## Specification vocabulary -/

/-- Ranking order of the leaderboard: `a` may stand before `b` when its score is
higher, or the scores are equal and `a` is at least as recent. -/
def rankedBefore (a b : Entry) : Prop :=
  b.score < a.score ∨ (a.score = b.score ∧ b.date ≤ a.date)

instance : DecidableRel rankedBefore := fun a b => by unfold rankedBefore; infer_instance

/-- The record that `addToLeaderboard` pushes. -/
def newEntry (name : String) (scoreVal : ℤ) (now : ℤ) : Entry :=
  { name := (if name = "" then "Anon" else name).take 12, score := scoreVal, date := now }

/-- The bounding box of the bird once the physics of an update has moved it. -/
def movedBox (s : Game) : Rect :=
  { x := bird_x, y := s.bird.y + min (s.bird.vy + bird_gravity) 12, w := bird_w, h := bird_h }

/-- The box `b` overlaps the top or the bottom rectangle of the pipe `p`. -/
def hitsPipe (b : Rect) (p : Pipe) : Prop :=
  rectsOverlap b (topBox p) = true ∨ rectsOverlap b (bottomBox p) = true

instance (b : Rect) (p : Pipe) : Decidable (hitsPipe b p) := by unfold hitsPipe; infer_instance

/-- The collision condition of an update: the moved bird overlaps a rectangle of some
pipe of the list the update leaves, or its bottom edge is at or below the ground line. -/
def collisionDetected (sin : ℚ → ℚ) (r : ℚ) (s : Game) : Prop :=
  (∃ p ∈ (update sin r s).pipes, hitsPipe (movedBox s) p) ∨
    (movedBox s).y + bird_h ≥ H - 120

instance (sin : ℚ → ℚ) (r : ℚ) (s : Game) : Decidable (collisionDetected sin r s) := by
  unfold collisionDetected; infer_instance

/-- The pipe is counted by the update that moves it by `speed`: its flag is not set
and its trailing edge is now left of the bird. -/
def newlyPassed (speed : ℚ) (p : Pipe) : Bool :=
  !p.passed && decide (p.x - speed + pipeW < bird_x)

/-- The pipe is spliced out by the update that moves it by `speed`. -/
def offScreen (speed : ℚ) (p : Pipe) : Bool :=
  decide (p.x - speed + pipeW < -40)

/-- The pipe as one iteration of the pipe loop leaves it. -/
def advancePipe (speed : ℚ) (p : Pipe) : Pipe :=
  { p with x := p.x - speed, passed := p.passed || newlyPassed speed p }

/-- The pipe list as the whole pipe loop leaves it: every pipe advanced, the
off-screen ones dropped. -/
def advancePipes (speed : ℚ) (ps : List Pipe) : List Pipe :=
  (ps.filter (fun p => !offScreen speed p)).map (advancePipe speed)

/-- The pipe that `spawnPipe` creates for the draw `r` at gap size `gap`. -/
def freshPipe (r gap : ℚ) : Pipe :=
  { x := W + 40
    top := mathRound (r * (H - gap - 200) + 60)
    bottom := H - mathRound (r * (H - gap - 200) + 60) - gap
    passed := false }

/-- The pipe list on which the pipe loop of `update` starts: the stored pipes, with a
new pipe behind them when the incremented frame counter is a multiple of the interval. -/
def pipesBeforeLoop (r : ℚ) (s : Game) : List Pipe :=
  (spawnStep r { s with frame := s.frame + 1 }).pipes

/-- How often one pipe is counted during `n` successive updates, up to its removal. -/
def countedOver (speed : ℚ) : ℕ → Pipe → ℕ
  | 0, _ => 0
  | n + 1, p =>
    (if newlyPassed speed p then 1 else 0) +
      (if offScreen speed p then 0 else countedOver speed n (advancePipe speed p))

/-- The pipe is removed from the list during `n` successive updates. -/
def removedWithin (speed : ℚ) : ℕ → Pipe → Bool
  | 0, _ => false
  | n + 1, p => offScreen speed p || removedWithin speed n (advancePipe speed p)

/-- No input of the sequence ends the run: every flap arrives in playing or paused
mode (a flap in crashed mode returns to the menu, a flap in the menu starts anew). -/
def sameRun (sin : ℚ → ℚ) : List Input → Game → Bool
  | [], _ => true
  | i :: is, s =>
    (decide (i ≠ .flap) || decide (s.state = .playing) || decide (s.state = .paused)) &&
      sameRun sin is (step sin s i)

/-- Number of frames (calls of `update`) in a sequence of inputs. -/
def frameCount (inputs : List Input) : ℕ :=
  inputs.countP (fun i => match i with | .update _ => true | _ => false)

/-- Number of frames of a sequence that run in playing mode. -/
def playingFrames (sin : ℚ → ℚ) : List Input → Game → ℕ
  | [], _ => 0
  | i :: is, s =>
    (match i with
      | .update _ => if s.state = .playing then 1 else 0
      | _ => 0) + playingFrames sin is (step sin s i)

/-- The collision condition of the input `i`: that of the update it is, none for the
other inputs. -/
def collisionOn (sin : ℚ → ℚ) (s : Game) : Input → Bool
  | .update r => decide (collisionDetected sin r s)
  | _ => false

/-- Transition table of the game modes: the mode that follows mode `m` on input `i`,
given whether the input is an update that detects a collision. -/
def nextMode (m : Mode) (i : Input) (collision : Bool) : Mode :=
  match i, m with
  | .flap, .menu => .playing
  | .flap, .crashed => .menu
  | .flap, .paused => .playing
  | .togglePause, .playing => .paused
  | .togglePause, .paused => .playing
  | .update _, .playing => if collision then .crashed else .playing
  | _, m => m

/-! ## Concrete states used as examples -/

/-- A game in the middle of a run: the bird at its start height, no pipe. -/
def midRun : Game :=
  { state := .playing, frame := 10, pipes := [], score := 0, best := 0,
    spawnInterval := 110, pipeSpeed := 22 / 10, gap := 160,
    bird := { y := 280, vy := 0, rotation := 0 },
    leaderboard := [], saveScoreHidden := true }

/-- The run `midRun`, paused. -/
def pausedRun : Game := { midRun with state := .paused }

/-- The run `midRun` with a pipe whose top segment reaches down to the bird. -/
def beforePipeHit : Game :=
  { midRun with pipes := [{ x := 120, top := 300, bottom := 240, passed := false }] }

/-- The frame after `beforePipeHit`: the bird has hit the pipe well above the ground. -/
def airborneCrash : Game := update (fun _ => 0) 0 beforePipeHit

/-- A stored leaderboard of five entries, scores 50 down to 10. -/
def boardOfFive : List Entry :=
  [{ name := "A", score := 50, date := 5 }, { name := "B", score := 40, date := 4 },
   { name := "C", score := 30, date := 3 }, { name := "D", score := 20, date := 2 },
   { name := "E", score := 10, date := 1 }]

/-- A crashed run of score 5 with `boardOfFive` stored. -/
def crashedWithFive : Game :=
  { midRun with state := .crashed, score := 5, leaderboard := boardOfFive }

/-- The run `midRun` with one uncounted pipe whose trailing edge is about to pass the
bird, and one counted pipe about to leave the screen. -/
def beforePass : Game :=
  { midRun with
    pipes := [{ x := -117, top := 200, bottom := 340, passed := true },
              { x := 43, top := 100, bottom := 440, passed := false }]
    score := 1 }

/-- A fresh game at hard difficulty, just started. -/
def hardStart : Game := startGame (setDifficulty .hard midRun)

/-- A pause right after the start, 94 frames spent paused, the resume and one frame
in playing mode. -/
def pausedThenOneFrame : List Input :=
  [.togglePause] ++ List.replicate 94 (.update 0) ++ [.togglePause, .update (1 / 2)]

/-- A game whose stored leaderboard is full: twenty entries with scores 59 down to 40,
the higher scores older. -/
def fullBoard : Game :=
  { midRun with
    state := .menu
    score := 50
    leaderboard := (List.range 20).map (fun i => { name := "P", score := 59 - i, date := i }) }

/-! # Theorems -/

/-! ## Leaderboard -/

theorem entryLE_iff (a b : Entry) : entryLE a b ↔ rankedBefore a b := by
  unfold entryLE compareEntries rankedBefore
  split_ifs with h
  · constructor
    · intro h1; left; omega
    · rintro (h1 | ⟨h1, _⟩) <;> omega
  · constructor
    · intro h1; right; constructor <;> omega
    · rintro (h1 | ⟨_, h1⟩) <;> omega

instance entryLE_isTotal : IsTotal Entry entryLE :=
  ⟨fun a b => by
    simp only [entryLE_iff, rankedBefore]
    omega⟩

instance entryLE_isTrans : IsTrans Entry entryLE :=
  ⟨fun a b c => by
    simp only [entryLE_iff, rankedBefore]
    omega⟩

theorem addToLeaderboard_leaderboard (name : String) (scoreVal now : ℤ) (s : Game) :
    (addToLeaderboard name scoreVal now s).leaderboard =
      (sortEntries (s.leaderboard ++ [newEntry name scoreVal now])).take 20 := rfl

/-- C1: for every stored leaderboard, name and score, the list `addToLeaderboard`
persists has at most 20 entries and is ordered by score descending, entries of equal
score by date descending. -/
theorem addToLeaderboard_sorted_capped (name : String) (scoreVal now : ℤ) (s : Game) :
    (addToLeaderboard name scoreVal now s).leaderboard.length ≤ 20 ∧
      (addToLeaderboard name scoreVal now s).leaderboard.Pairwise rankedBefore := by
  rw [addToLeaderboard_leaderboard]
  refine ⟨by simp, ?_⟩
  have hs : List.Sorted entryLE (sortEntries (s.leaderboard ++ [newEntry name scoreVal now])) :=
    List.sorted_insertionSort entryLE _
  have ht := List.Pairwise.sublist (List.take_sublist 20 _) hs
  exact ht.imp (fun {a b} h => (entryLE_iff a b).1 h)

/-- Stable insertion of one entry behind a sorted list: the sort splits the old list
in two and puts the new entry between the halves, behind everything that may stand
before it. -/
theorem sortEntries_append_singleton (e : Entry) :
    ∀ old : List Entry, old.Pairwise entryLE →
      ∃ pre suf, old = pre ++ suf ∧ sortEntries (old ++ [e]) = pre ++ e :: suf ∧
        (∀ x ∈ pre, entryLE x e) ∧ (∀ x ∈ suf, ¬ entryLE x e)
  | [], _ => ⟨[], [], rfl, rfl, by simp, by simp⟩
  | a :: l, h => by
    obtain ⟨hal, hl⟩ := List.pairwise_cons.1 h
    obtain ⟨pre, suf, rfl, hsort, hpre, hsuf⟩ := sortEntries_append_singleton e l hl
    have hstep : sortEntries (a :: (pre ++ suf) ++ [e]) =
        List.orderedInsert entryLE a (pre ++ e :: suf) := by
      show List.orderedInsert entryLE a (sortEntries (pre ++ suf ++ [e])) = _
      rw [hsort]
    by_cases hae : entryLE a e
    · refine ⟨a :: pre, suf, rfl, ?_, ?_, hsuf⟩
      · rw [hstep]
        cases pre with
        | nil => simp [List.orderedInsert, hae]
        | cons b pre' =>
          have hab : entryLE a b := hal b (by simp)
          simp [List.orderedInsert, hab]
      · intro x hx
        rcases List.mem_cons.1 hx with rfl | hx
        · exact hae
        · exact hpre x hx
    · have hnil : pre = [] := by
        cases pre with
        | nil => rfl
        | cons b pre' =>
          exact absurd (entryLE_isTrans.trans _ _ _ (hal b (by simp)) (hpre b (by simp))) hae
      subst hnil
      refine ⟨[], a :: suf, rfl, ?_, by simp, ?_⟩
      · rw [hstep]
        have hins : List.orderedInsert entryLE a suf = a :: suf := by
          cases suf with
          | nil => rfl
          | cons b suf' =>
            have hab : entryLE a b := hal b (by simp)
            simp [List.orderedInsert, hab]
        simp [List.orderedInsert, hae, hins]
      · intro x hx
        rcases List.mem_cons.1 hx with rfl | hx
        · exact hae
        · exact hsuf x hx

/-- C5: on a sorted leaderboard of exactly 20 entries whose last (lowest) score is
strictly below the submitted score, `addToLeaderboard` persists 20 entries, the new
entry among them, and the list is the old one without its last entry and with the new
entry inserted. -/
theorem addToLeaderboard_evicts_lowest (name : String) (scoreVal now : ℤ) (s : Game)
    (hlen : s.leaderboard.length = 20)
    (hsorted : s.leaderboard.Pairwise rankedBefore)
    (hlow : ∀ last ∈ s.leaderboard.getLast?, last.score < scoreVal) :
    (addToLeaderboard name scoreVal now s).leaderboard.length = 20 ∧
      newEntry name scoreVal now ∈ (addToLeaderboard name scoreVal now s).leaderboard ∧
      ∃ pre suf, s.leaderboard.dropLast = pre ++ suf ∧
        (addToLeaderboard name scoreVal now s).leaderboard =
          pre ++ newEntry name scoreVal now :: suf := by
  rw [addToLeaderboard_leaderboard]
  have hs : s.leaderboard.Pairwise entryLE :=
    hsorted.imp (fun {a b} h => (entryLE_iff a b).2 h)
  obtain ⟨pre, suf, hold, hsort, hpre, hsuf⟩ :=
    sortEntries_append_singleton (newEntry name scoreVal now) s.leaderboard hs
  have hne : s.leaderboard ≠ [] := by
    intro h; rw [h] at hlen; simp at hlen
  have hlast : (s.leaderboard.getLast hne).score < scoreVal :=
    hlow _ (by rw [List.getLast?_eq_getLast _ hne]; rfl)
  have hnot : ¬ entryLE (s.leaderboard.getLast hne) (newEntry name scoreVal now) := by
    rw [entryLE_iff]
    simp only [rankedBefore, newEntry]
    omega
  have hsufne : suf ≠ [] := by
    intro h
    subst h
    apply hnot
    apply hpre
    have hmem : ∀ x ∈ s.leaderboard, x ∈ pre := by
      intro x hx
      rw [hold] at hx
      simpa using hx
    exact hmem _ (List.getLast_mem hne)
  obtain ⟨suf', last, rfl⟩ : ∃ suf' last, suf = suf' ++ [last] :=
    ⟨suf.dropLast, suf.getLast hsufne, (List.dropLast_append_getLast hsufne).symm⟩
  have hl : pre.length + suf'.length = 19 := by
    rw [hold] at hlen
    simp at hlen
    omega
  have hdrop : s.leaderboard.dropLast = pre ++ suf' := by
    rw [hold, ← List.append_assoc, List.dropLast_concat]
  have htake : (sortEntries (s.leaderboard ++ [newEntry name scoreVal now])).take 20 =
      pre ++ newEntry name scoreVal now :: suf' := by
    rw [hsort]
    have : pre ++ newEntry name scoreVal now :: (suf' ++ [last]) =
        (pre ++ newEntry name scoreVal now :: suf') ++ [last] := by simp
    rw [this, List.take_append_of_le_length (by simp; omega), List.take_of_length_le (by simp; omega)]
  rw [htake]
  refine ⟨by simp; omega, by simp, pre, suf', hdrop, rfl⟩

/-- Witness of C5: twenty entries with scores 59 down to 40, and a submitted score
of 50. -/
theorem addToLeaderboard_evicts_lowest_witness :
    fullBoard.leaderboard.length = 20 ∧
      (addToLeaderboard "Zed" 50 1000 fullBoard).leaderboard.length = 20 ∧
      newEntry "Zed" 50 1000 ∈ (addToLeaderboard "Zed" 50 1000 fullBoard).leaderboard :=
  ⟨by decide,
    (addToLeaderboard_evicts_lowest "Zed" 50 1000 fullBoard (by decide) (by decide)
      (by decide)).1,
    (addToLeaderboard_evicts_lowest "Zed" 50 1000 fullBoard (by decide) (by decide)
      (by decide)).2.1⟩

/-- The scores persisted in the spec's example: the entry of score 40 is gone and the
new entry of score 50 stands before the older entry of the same score. -/
theorem addToLeaderboard_example :
    (addToLeaderboard "Zed" 50 1000 fullBoard).leaderboard.map (fun e => (e.score, e.date)) =
      [(59, 0), (58, 1), (57, 2), (56, 3), (55, 4), (54, 5), (53, 6), (52, 7), (51, 8),
       (50, 1000), (50, 9), (49, 10), (48, 11), (47, 12), (46, 13), (45, 14), (44, 15),
       (43, 16), (42, 17), (41, 18)] := by
  decide!

/-! ## Effect of the phases of `update` on the fields -/

@[simp] theorem physicsStep_state (s : Game) : (physicsStep s).state = s.state := rfl

@[simp] theorem physicsStep_vy (s : Game) :
    (physicsStep s).bird.vy = min (s.bird.vy + bird_gravity) 12 := rfl

@[simp] theorem physicsStep_y (s : Game) :
    (physicsStep s).bird.y = s.bird.y + min (s.bird.vy + bird_gravity) 12 := rfl

@[simp] theorem physicsStep_pipes (s : Game) : (physicsStep s).pipes = s.pipes := rfl

@[simp] theorem physicsStep_score (s : Game) : (physicsStep s).score = s.score := rfl

@[simp] theorem physicsStep_frame (s : Game) : (physicsStep s).frame = s.frame := rfl

@[simp] theorem physicsStep_pipeSpeed (s : Game) : (physicsStep s).pipeSpeed = s.pipeSpeed := rfl

@[simp] theorem spawnStep_state (r : ℚ) (s : Game) : (spawnStep r s).state = s.state := by
  unfold spawnStep spawnPipe; split_ifs <;> rfl

@[simp] theorem spawnStep_bird (r : ℚ) (s : Game) : (spawnStep r s).bird = s.bird := by
  unfold spawnStep spawnPipe; split_ifs <;> rfl

@[simp] theorem spawnStep_score (r : ℚ) (s : Game) : (spawnStep r s).score = s.score := by
  unfold spawnStep spawnPipe; split_ifs <;> rfl

@[simp] theorem spawnStep_frame (r : ℚ) (s : Game) : (spawnStep r s).frame = s.frame := by
  unfold spawnStep spawnPipe; split_ifs <;> rfl

@[simp] theorem spawnStep_pipeSpeed (r : ℚ) (s : Game) :
    (spawnStep r s).pipeSpeed = s.pipeSpeed := by
  unfold spawnStep spawnPipe; split_ifs <;> rfl

@[simp] theorem pipesStep_state (s : Game) : (pipesStep s).state = s.state := rfl

@[simp] theorem pipesStep_bird (s : Game) : (pipesStep s).bird = s.bird := rfl

@[simp] theorem pipesStep_frame (s : Game) : (pipesStep s).frame = s.frame := rfl

@[simp] theorem pipeCollisionStep_bird (s : Game) : (pipeCollisionStep s).bird = s.bird := by
  unfold pipeCollisionStep; split_ifs <;> rfl

@[simp] theorem pipeCollisionStep_pipes (s : Game) :
    (pipeCollisionStep s).pipes = s.pipes := by
  unfold pipeCollisionStep; split_ifs <;> rfl

@[simp] theorem pipeCollisionStep_score (s : Game) :
    (pipeCollisionStep s).score = s.score := by
  unfold pipeCollisionStep; split_ifs <;> rfl

@[simp] theorem pipeCollisionStep_frame (s : Game) :
    (pipeCollisionStep s).frame = s.frame := by
  unfold pipeCollisionStep; split_ifs <;> rfl

theorem pipeCollisionStep_state (s : Game) :
    (pipeCollisionStep s).state =
      if ∃ p ∈ s.pipes, hitsPipe (birdBox s.bird) p then .crashed else s.state := by
  unfold pipeCollisionStep hitsPipe
  simp only [List.any_eq_true, Bool.or_eq_true]
  split_ifs <;> rfl

@[simp] theorem groundStep_vy (s : Game) : (groundStep s).bird.vy = s.bird.vy := by
  unfold groundStep; split_ifs <;> rfl

@[simp] theorem groundStep_pipes (s : Game) : (groundStep s).pipes = s.pipes := by
  unfold groundStep; split_ifs <;> rfl

@[simp] theorem groundStep_score (s : Game) : (groundStep s).score = s.score := by
  unfold groundStep; split_ifs <;> rfl

@[simp] theorem groundStep_frame (s : Game) : (groundStep s).frame = s.frame := by
  unfold groundStep; split_ifs <;> rfl

theorem groundStep_state (s : Game) :
    (groundStep s).state = if s.bird.y + bird_h ≥ H - 120 then .crashed else s.state := by
  unfold groundStep; split_ifs <;> rfl

@[simp] theorem ceilingStep_state (s : Game) : (ceilingStep s).state = s.state := by
  unfold ceilingStep; split_ifs <;> rfl

@[simp] theorem ceilingStep_pipes (s : Game) : (ceilingStep s).pipes = s.pipes := by
  unfold ceilingStep; split_ifs <;> rfl

@[simp] theorem ceilingStep_score (s : Game) : (ceilingStep s).score = s.score := by
  unfold ceilingStep; split_ifs <;> rfl

@[simp] theorem ceilingStep_frame (s : Game) : (ceilingStep s).frame = s.frame := by
  unfold ceilingStep; split_ifs <;> rfl

theorem ceilingStep_vy_le (s : Game) (h : s.bird.vy ≤ 12) : (ceilingStep s).bird.vy ≤ 12 := by
  unfold ceilingStep; split_ifs
  · show (0 : ℚ) ≤ 12
    norm_num
  · exact h

/-- In playing mode `update` is the chain of its phases. -/
theorem update_playing (sin : ℚ → ℚ) (r : ℚ) (s : Game) (h : s.state = .playing) :
    update sin r s =
      ceilingStep (groundStep (pipeCollisionStep (pipesStep (spawnStep r
        (physicsStep { s with frame := s.frame + 1 }))))) := by
  unfold update
  simp only [h]

/-- In paused mode `update` only advances the frame counter. -/
theorem update_paused (sin : ℚ → ℚ) (r : ℚ) (s : Game) (h : s.state = .paused) :
    update sin r s = { s with frame := s.frame + 1 } := by
  unfold update
  simp only [h]

/-- In menu mode `update` bobs the bird around its rest height. -/
theorem update_menu (sin : ℚ → ℚ) (r : ℚ) (s : Game) (h : s.state = .menu) :
    update sin r s =
      { s with
        frame := s.frame + 1
        bird := { s.bird with
          y := mathRound (H * (4 / 10) + sin (((s.frame + 1 : ℕ) : ℚ) * (8 / 100)) * 10)
          rotation := sin (((s.frame + 1 : ℕ) : ℚ) * (8 / 100)) * 6 } } := by
  unfold update
  simp only [h]

/-- In crashed mode `update` lets the bird fall until it is on the ground. -/
theorem update_crashed (sin : ℚ → ℚ) (r : ℚ) (s : Game) (h : s.state = .crashed) :
    update sin r s =
      if s.bird.y + bird_h < H - 120 then
        { s with
          frame := s.frame + 1
          bird := { y := s.bird.y + (s.bird.vy + bird_gravity)
                    vy := s.bird.vy + bird_gravity
                    rotation := min 90 (s.bird.rotation + 6) } }
      else { s with frame := s.frame + 1 } := by
  unfold update
  simp only [h]

theorem update_frame (sin : ℚ → ℚ) (r : ℚ) (s : Game) :
    (update sin r s).frame = s.frame + 1 := by
  rcases hs : s.state with _ | _ | _ | _
  · rw [update_menu sin r s hs]
  · rw [update_playing sin r s hs]; simp
  · rw [update_crashed sin r s hs]; split_ifs <;> rfl
  · rw [update_paused sin r s hs]

theorem update_state_of_not_playing (sin : ℚ → ℚ) (r : ℚ) (s : Game) (h : s.state ≠ .playing) :
    (update sin r s).state = s.state := by
  rcases hs : s.state with _ | _ | _ | _
  · rw [update_menu sin r s hs]; exact hs
  · exact absurd hs h
  · rw [update_crashed sin r s hs]; split_ifs <;> exact hs
  · rw [update_paused sin r s hs]; exact hs

theorem update_playing_pipes (sin : ℚ → ℚ) (r : ℚ) (s : Game) (h : s.state = .playing) :
    (update sin r s).pipes =
      (pipesStep (spawnStep r (physicsStep { s with frame := s.frame + 1 }))).pipes := by
  rw [update_playing sin r s h]; simp

/-- The mode after an update in playing mode. -/
theorem update_playing_state (sin : ℚ → ℚ) (r : ℚ) (s : Game) (h : s.state = .playing) :
    (update sin r s).state = if collisionDetected sin r s then .crashed else .playing := by
  have hiff : collisionDetected sin r s ↔
      ((∃ p ∈ (pipesStep (spawnStep r (physicsStep { s with frame := s.frame + 1 }))).pipes,
        hitsPipe (movedBox s) p) ∨ (movedBox s).y + bird_h ≥ H - 120) := by
    unfold collisionDetected
    rw [update_playing_pipes sin r s h]
  have hb : birdBox (physicsStep { s with frame := s.frame + 1 }).bird = movedBox s := rfl
  have hy : (physicsStep { s with frame := s.frame + 1 }).bird.y = (movedBox s).y := rfl
  have hst : (update sin r s).state =
      if (movedBox s).y + bird_h ≥ H - 120 then .crashed
      else if ∃ p ∈ (pipesStep (spawnStep r (physicsStep { s with frame := s.frame + 1 }))).pipes,
        hitsPipe (movedBox s) p then .crashed else .playing := by
    rw [update_playing sin r s h]
    simp only [ceilingStep_state, groundStep_state, pipeCollisionStep_state,
      pipeCollisionStep_bird, pipesStep_bird, spawnStep_bird, pipesStep_state, spawnStep_state,
      physicsStep_state, hb, hy]
    rw [h]
  rw [hst]
  by_cases hc : collisionDetected sin r s
  · rw [if_pos hc]
    rcases hiff.1 hc with h2 | h1
    · split_ifs <;> rfl
    · rw [if_pos h1]
  · rw [if_neg hc]
    have hc2 := mt hiff.2 hc
    rw [not_or] at hc2
    rw [if_neg hc2.2, if_neg hc2.1]

/-! ## The flap action and the pause toggle -/

@[simp] theorem restartToMenu_state (s : Game) : (restartToMenu s).state = .menu := by
  unfold restartToMenu
  dsimp only
  split_ifs <;> rfl

theorem flap_menu (s : Game) (h : s.state = .menu) :
    flap s = { startGame s with bird := { (startGame s).bird with vy := bird_flapPower } } := by
  unfold flap
  simp [h, startGame]

theorem flap_playing (s : Game) (h : s.state = .playing) :
    flap s = { s with bird := { s.bird with vy := bird_flapPower } } := by
  unfold flap
  simp [h]

theorem flap_crashed (s : Game) (h : s.state = .crashed) : flap s = restartToMenu s := by
  unfold flap
  simp [h]

theorem flap_paused (s : Game) (h : s.state = .paused) :
    flap s = { s with state := .playing } := by
  unfold flap
  simp [h]

theorem togglePause_playing (s : Game) (h : s.state = .playing) :
    togglePause s = { s with state := .paused } := by
  unfold togglePause
  simp [h]

theorem togglePause_paused (s : Game) (h : s.state = .paused) :
    togglePause s = { s with state := .playing } := by
  unfold togglePause
  simp [h]

theorem togglePause_other (s : Game) (h1 : s.state ≠ .playing) (h2 : s.state ≠ .paused) :
    togglePause s = s := by
  unfold togglePause
  simp [h1, h2]

theorem bird_flapPower_le : bird_flapPower ≤ 12 := by
  norm_num [bird_flapPower]

/-- One input keeps the fall speed capped whenever the game is playing or paused. -/
theorem step_velocity_capped (sin : ℚ → ℚ) (s : Game) (i : Input)
    (h : s.state = .playing ∨ s.state = .paused → s.bird.vy ≤ 12) :
    (step sin s i).state = .playing ∨ (step sin s i).state = .paused →
      (step sin s i).bird.vy ≤ 12 := by
  cases i with
  | flap =>
    show (flap s).state = .playing ∨ (flap s).state = .paused → (flap s).bird.vy ≤ 12
    rcases hs : s.state with _ | _ | _ | _
    · rw [flap_menu s hs]; intro _; exact bird_flapPower_le
    · rw [flap_playing s hs]; intro _; exact bird_flapPower_le
    · rw [flap_crashed s hs]; simp
    · rw [flap_paused s hs]; intro _; exact h (Or.inr hs)
  | togglePause =>
    show (togglePause s).state = .playing ∨ (togglePause s).state = .paused →
      (togglePause s).bird.vy ≤ 12
    rcases hs : s.state with _ | _ | _ | _
    · rw [togglePause_other s (by simp [hs]) (by simp [hs])]; simp [hs]
    · rw [togglePause_playing s hs]; intro _; exact h (Or.inl hs)
    · rw [togglePause_other s (by simp [hs]) (by simp [hs])]; simp [hs]
    · rw [togglePause_paused s hs]; intro _; exact h (Or.inr hs)
  | update r =>
    show (update sin r s).state = .playing ∨ (update sin r s).state = .paused →
      (update sin r s).bird.vy ≤ 12
    rcases hs : s.state with _ | _ | _ | _
    · rw [update_state_of_not_playing sin r s (by simp [hs])]; simp [hs]
    · intro _
      rw [update_playing sin r s hs]
      apply ceilingStep_vy_le
      simp only [groundStep_vy, pipeCollisionStep_bird, pipesStep_bird, spawnStep_bird,
        physicsStep_vy]
      exact min_le_right _ _
    · rw [update_state_of_not_playing sin r s (by simp [hs])]; simp [hs]
    · rw [update_paused sin r s hs]; intro _; exact h (Or.inr hs)

theorem run_velocity_capped (sin : ℚ → ℚ) :
    ∀ (inputs : List Input) (s : Game),
      (s.state = .playing ∨ s.state = .paused → s.bird.vy ≤ 12) →
      (run sin inputs s).state = .playing ∨ (run sin inputs s).state = .paused →
        (run sin inputs s).bird.vy ≤ 12
  | [], _, h => h
  | i :: is, s, h => run_velocity_capped sin is (step sin s i) (step_velocity_capped sin s i h)

/-- C6: in every state reachable from `startGame` by flap, togglePause and update
steps, the fall speed `bird.vy` is at most 12 whenever the mode is playing. -/
theorem playing_velocity_le_terminal (sin : ℚ → ℚ) (inputs : List Input) (s0 : Game)
    (h : (run sin inputs (startGame s0)).state = .playing) :
    (run sin inputs (startGame s0)).bird.vy ≤ 12 :=
  run_velocity_capped sin inputs (startGame s0)
    (fun _ => by show (0 : ℚ) ≤ 12; norm_num) (Or.inl h)

/-- Witness of C6: a flap, the physics of one frame, a pause and a resume. -/
theorem playing_velocity_le_terminal_witness :
    (run (fun _ => 0) [.flap, .update 0, .togglePause, .togglePause] (startGame midRun)).state
        = .playing ∧
      (run (fun _ => 0) [.flap, .update 0, .togglePause, .togglePause]
        (startGame midRun)).bird.vy ≤ 12 :=
  ⟨by decide!, playing_velocity_le_terminal _ _ _ (by decide!)⟩

/-- C3: an update in playing mode ends in crashed mode exactly when the moved bird
overlaps the top or bottom rectangle of some pipe or its bottom edge is at or below the
ground line `H - 120`; otherwise the mode stays playing, also at the top boundary,
where the position is clamped to `-20` and the velocity set to zero. -/
theorem update_crashes_iff_collision (sin : ℚ → ℚ) (r : ℚ) (s : Game)
    (h : s.state = .playing) :
    ((update sin r s).state = .crashed ↔
      ((∃ p ∈ (update sin r s).pipes,
          rectsOverlap (movedBox s) (topBox p) = true ∨
            rectsOverlap (movedBox s) (bottomBox p) = true) ∨
        s.bird.y + min (s.bird.vy + bird_gravity) 12 + bird_h ≥ H - 120)) ∧
    ((update sin r s).state = .crashed ∨ (update sin r s).state = .playing) ∧
    (s.bird.y + min (s.bird.vy + bird_gravity) 12 < -20 →
      (update sin r s).bird.y = -20 ∧ (update sin r s).bird.vy = 0 ∧
        ((update sin r s).state = .crashed ↔
          ∃ p ∈ (update sin r s).pipes,
            rectsOverlap (movedBox s) (topBox p) = true ∨
              rectsOverlap (movedBox s) (bottomBox p) = true)) := by
  have hst := update_playing_state sin r s h
  have hcd : collisionDetected sin r s ↔
      ((∃ p ∈ (update sin r s).pipes,
          rectsOverlap (movedBox s) (topBox p) = true ∨
            rectsOverlap (movedBox s) (bottomBox p) = true) ∨
        s.bird.y + min (s.bird.vy + bird_gravity) 12 + bird_h ≥ H - 120) := Iff.rfl
  refine ⟨?_, ?_, ?_⟩
  · rw [← hcd, hst]
    by_cases hc : collisionDetected sin r s <;> simp [hc]
  · rw [hst]
    by_cases hc : collisionDetected sin r s <;> simp [hc]
  · intro hy
    have hground : ¬ (s.bird.y + min (s.bird.vy + bird_gravity) 12 + bird_h ≥ H - 120) := by
      have : bird_h = 24 := rfl
      have : H = 700 := rfl
      intro hg
      linarith
    refine ⟨?_, ?_, ?_⟩
    · rw [update_playing sin r s h]
      unfold ceilingStep groundStep
      simp [hground, hy]
    · rw [update_playing sin r s h]
      unfold ceilingStep groundStep
      simp [hground, hy]
    · rw [hst]
      by_cases hc : collisionDetected sin r s
      · simp only [hc, if_true, true_iff]
        rcases hcd.1 hc with h1 | h1
        · exact h1
        · exact absurd h1 hground
      · simp only [hc, if_false]
        constructor
        · intro h1; cases h1
        · intro h1; exact absurd (hcd.2 (Or.inl h1)) hc

/-- Witness of C3: the frame in which the bird of `beforePipeHit` meets the pipe. -/
theorem update_crashes_iff_collision_witness :
    beforePipeHit.state = .playing ∧
      ((update (fun _ => 0) 0 beforePipeHit).state = .crashed ↔
        ((∃ p ∈ (update (fun _ => 0) 0 beforePipeHit).pipes,
            rectsOverlap (movedBox beforePipeHit) (topBox p) = true ∨
              rectsOverlap (movedBox beforePipeHit) (bottomBox p) = true) ∨
          beforePipeHit.bird.y + min (beforePipeHit.bird.vy + bird_gravity) 12 + bird_h
            ≥ H - 120)) :=
  ⟨rfl, (update_crashes_iff_collision (fun _ => 0) 0 beforePipeHit rfl).1⟩

/-! ## Mode transitions -/

/-- The mode after any single input follows the transition table `nextMode`. -/
theorem step_state (sin : ℚ → ℚ) (s : Game) (i : Input) :
    (step sin s i).state = nextMode s.state i (collisionOn sin s i) := by
  cases i with
  | flap =>
    show (flap s).state = _
    rcases hs : s.state with _ | _ | _ | _
    · rw [flap_menu s hs]; rfl
    · rw [flap_playing s hs]; exact hs
    · rw [flap_crashed s hs]; simp [nextMode]
    · rw [flap_paused s hs]; rfl
  | togglePause =>
    show (togglePause s).state = _
    rcases hs : s.state with _ | _ | _ | _
    · rw [togglePause_other s (by simp [hs]) (by simp [hs])]; exact hs
    · rw [togglePause_playing s hs]; rfl
    · rw [togglePause_other s (by simp [hs]) (by simp [hs])]; exact hs
    · rw [togglePause_paused s hs]; rfl
  | update r =>
    show (update sin r s).state = _
    rcases hs : s.state with _ | _ | _ | _
    · rw [update_state_of_not_playing sin r s (by simp [hs])]; exact hs
    · rw [update_playing_state sin r s hs]
      simp [nextMode, collisionOn]
    · rw [update_state_of_not_playing sin r s (by simp [hs])]; exact hs
    · rw [update_state_of_not_playing sin r s (by simp [hs])]; exact hs

/-- C8 (counterexample): a flap in paused mode changes the mode to playing, a
transition the claim does not list. -/
theorem flap_resumes_paused_game :
    pausedRun.state = .paused ∧ (step (fun _ => 0) pausedRun .flap).state = .playing := by
  decide

/-- C8 (amended): the mode after any input is given by the transition table
`nextMode`, and the mode changes exactly on: menu to playing on flap, playing to paused
and paused to playing on togglePause, paused to playing on flap, playing to crashed on
an update that detects a collision, crashed to menu on flap. -/
theorem mode_transitions (sin : ℚ → ℚ) (s : Game) (i : Input) :
    (step sin s i).state = nextMode s.state i (collisionOn sin s i) ∧
    ((step sin s i).state ≠ s.state ↔
      (s.state = .menu ∧ i = .flap ∧ (step sin s i).state = .playing) ∨
      (s.state = .playing ∧ i = .togglePause ∧ (step sin s i).state = .paused) ∨
      (s.state = .paused ∧ i = .togglePause ∧ (step sin s i).state = .playing) ∨
      (s.state = .paused ∧ i = .flap ∧ (step sin s i).state = .playing) ∨
      (s.state = .playing ∧ (∃ r, i = .update r ∧ collisionDetected sin r s) ∧
        (step sin s i).state = .crashed) ∨
      (s.state = .crashed ∧ i = .flap ∧ (step sin s i).state = .menu)) := by
  refine ⟨step_state sin s i, ?_⟩
  rw [step_state sin s i]
  rcases hs : s.state with _ | _ | _ | _ <;> cases i with
  | flap => simp [nextMode]
  | togglePause => simp [nextMode]
  | update r =>
    by_cases hc : collisionDetected sin r s <;> simp [nextMode, collisionOn, hc]

/-- C9 (counterexample): the bird of `airborneCrash` has crashed into a pipe and is
still above the ground, and a flap returns the game to the menu. -/
theorem flap_leaves_crashed_before_landing :
    airborneCrash.state = .crashed ∧ airborneCrash.bird.y + bird_h < H - 120 ∧
      (flap airborneCrash).state = .menu := by
  decide!

/-- C9 (amended): a flap in crashed mode returns the game to the menu, whether or not
the bird has landed. -/
theorem flap_crashed_returns_to_menu (s : Game) (h : s.state = .crashed) :
    (flap s).state = .menu := by
  rw [flap_crashed s h]
  exact restartToMenu_state s

/-- Witness of C9 (amended): the crashed run `crashedWithFive`. -/
theorem flap_crashed_returns_to_menu_witness :
    crashedWithFive.state = .crashed ∧ (flap crashedWithFive).state = .menu :=
  ⟨rfl, flap_crashed_returns_to_menu crashedWithFive rfl⟩

/-! ## The save-score prompt -/

/-- The prompt decision of `restartToMenu`: the box is shown exactly when fewer than
five entries are stored or the score beats the last stored entry. -/
theorem restartToMenu_saveScoreHidden (s : Game) :
    (restartToMenu s).saveScoreHidden = false ↔
      (s.leaderboard.length < 5 ∨
        ∃ last ∈ s.leaderboard.getLast?, last.score < s.score) := by
  unfold restartToMenu
  dsimp only
  have hl : (if s.score > s.best then { s with best := s.score } else s).leaderboard
      = s.leaderboard := by split_ifs <;> rfl
  have hsc : (if s.score > s.best then { s with best := s.score } else s).score
      = s.score := by split_ifs <;> rfl
  rw [hl, hsc]
  by_cases h5 : s.leaderboard.length < 5
  · simp [h5]
  · have hne : s.leaderboard ≠ [] := by
      intro h; rw [h] at h5; simp at h5
    have hlast : s.leaderboard.get? (s.leaderboard.length - 1) =
        some (s.leaderboard.getLast hne) := by
      rw [List.getLast_eq_getElem, List.get?_eq_getElem?, List.getElem?_eq_getElem]
    simp only [h5, if_false, or_false, false_or, hlast, Option.map_some', Option.getD_some,
      List.getLast?_eq_getLast _ hne, Option.mem_def, Option.some.injEq, exists_eq_left',
      gt_iff_lt]
    by_cases h1 : (s.leaderboard.getLast hne).score < s.score
    · simp [h1]
    · simp [h1]

/-- C4 (failing input): five entries are stored, fewer than 20, and the score 5 is
below all of them; `restartToMenu` hides the save-score box. -/
theorem restartToMenu_hides_prompt_with_five_entries :
    crashedWithFive.leaderboard.length < 20 ∧
      (restartToMenu crashedWithFive).saveScoreHidden = true := by
  decide

/-! ## Spawning -/

theorem mathRound_bounds (x : ℚ) (lo hi : ℤ) (h1 : (lo : ℚ) ≤ x) (h2 : x ≤ hi) :
    lo ≤ mathRound x ∧ mathRound x ≤ hi := by
  unfold mathRound
  constructor
  · rw [Int.le_floor]
    linarith
  · have : ⌊x + 1 / 2⌋ < hi + 1 := by
      rw [Int.floor_lt]
      push_cast
      linarith
    omega

/-- C7: for every draw `r` in `[0,1)` and each difficulty preset, the pipe created by
`spawnPipe` has non-negative top and bottom heights with top + bottom + gap = 700. -/
theorem spawnPipe_partitions_height (d : DifficultyName) (r : ℚ) (hr0 : 0 ≤ r) (hr1 : r < 1)
    (s : Game) :
    ((difficulties d).gap = 190 ∨ (difficulties d).gap = 160 ∨ (difficulties d).gap = 140) ∧
    ∃ p, (spawnPipe r (setDifficulty d s)).pipes = s.pipes ++ [p] ∧
      0 ≤ p.top ∧ 0 ≤ p.bottom ∧ p.top + p.bottom + (difficulties d).gap = 700 := by
  refine ⟨by cases d <;> simp [difficulties], ?_⟩
  refine ⟨_, rfl, ?_, ?_, ?_⟩
  · show (0 : ℚ) ≤ ((mathRound (r * (H - (difficulties d).gap - 200) + 60) : ℤ) : ℚ)
    have hb := (mathRound_bounds (r * (H - (difficulties d).gap - 200) + 60) 60 560 (by
      cases d <;> simp only [difficulties, H] <;> push_cast <;> nlinarith) (by
      cases d <;> simp only [difficulties, H] <;> push_cast <;> nlinarith)).1
    have : (0 : ℤ) ≤ mathRound (r * (H - (difficulties d).gap - 200) + 60) := by omega
    exact_mod_cast this
  · show (0 : ℚ) ≤ H - ((mathRound (r * (H - (difficulties d).gap - 200) + 60) : ℤ) : ℚ)
      - (difficulties d).gap
    cases d
    · have hb := (mathRound_bounds (r * (H - (difficulties .easy).gap - 200) + 60) 60 370 (by
        simp only [difficulties, H]; push_cast; nlinarith) (by
        simp only [difficulties, H]; push_cast; nlinarith)).2
      have : ((mathRound (r * (H - (difficulties .easy).gap - 200) + 60) : ℤ) : ℚ) ≤ 370 := by
        exact_mod_cast hb
      simp only [difficulties, H] at this ⊢
      linarith
    · have hb := (mathRound_bounds (r * (H - (difficulties .normal).gap - 200) + 60) 60 400 (by
        simp only [difficulties, H]; push_cast; nlinarith) (by
        simp only [difficulties, H]; push_cast; nlinarith)).2
      have : ((mathRound (r * (H - (difficulties .normal).gap - 200) + 60) : ℤ) : ℚ) ≤ 400 := by
        exact_mod_cast hb
      simp only [difficulties, H] at this ⊢
      linarith
    · have hb := (mathRound_bounds (r * (H - (difficulties .hard).gap - 200) + 60) 60 420 (by
        simp only [difficulties, H]; push_cast; nlinarith) (by
        simp only [difficulties, H]; push_cast; nlinarith)).2
      have : ((mathRound (r * (H - (difficulties .hard).gap - 200) + 60) : ℤ) : ℚ) ≤ 420 := by
        exact_mod_cast hb
      simp only [difficulties, H] at this ⊢
      linarith
  · show ((mathRound (r * (H - (difficulties d).gap - 200) + 60) : ℤ) : ℚ)
      + (H - ((mathRound (r * (H - (difficulties d).gap - 200) + 60) : ℤ) : ℚ)
        - (difficulties d).gap) + (difficulties d).gap = 700
    simp only [H]
    ring

/-- Witness of C7: the draw `2/17` at normal difficulty, which gives top 100, gap 160
and bottom 440. -/
theorem spawnPipe_partitions_height_witness :
    (0 : ℚ) ≤ 2 / 17 ∧ (2 / 17 : ℚ) < 1 ∧
      ∃ p, (spawnPipe (2 / 17) (setDifficulty .normal midRun)).pipes = midRun.pipes ++ [p] ∧
        0 ≤ p.top ∧ 0 ≤ p.bottom ∧ p.top + p.bottom + (difficulties .normal).gap = 700 :=
  ⟨by norm_num, by norm_num,
    (spawnPipe_partitions_height .normal (2 / 17) (by norm_num) (by norm_num) midRun).2⟩

/-- The pipe of the spec's example: top 100, bottom 440 at gap 160. -/
theorem spawnPipe_example :
    (spawnPipe (2 / 17) (setDifficulty .normal midRun)).pipes =
      [{ x := 520, top := 100, bottom := 440, passed := false }] := by
  decide!

/-! ## The pipe loop -/

theorem bird_x_eq : bird_x = 120 := by
  norm_num [bird_x, mathRound, W]

/-- One iteration of the pipe loop, on the pipe at index `i`. -/
theorem pipeLoop_succ (speed : ℚ) (i : ℕ) (pipes : List Pipe) (score : ℤ) (p : Pipe)
    (h : pipes.get? i = some p) :
    pipeLoop speed (i + 1) (pipes, score) =
      pipeLoop speed i
        (if offScreen speed p = true then pipes.eraseIdx i
          else pipes.set i (advancePipe speed p),
         score + if newlyPassed speed p = true then 1 else 0) := by
  rw [pipeLoop]
  simp only [h]
  have hn : (!p.passed && decide (p.x - speed + pipeW < bird_x)) = newlyPassed speed p := rfl
  rw [hn]
  cases hc : newlyPassed speed p
  · have ha : advancePipe speed p = { p with x := p.x - speed } := by
      unfold advancePipe
      rw [hc, Bool.or_false]
    simp only [Bool.false_eq_true, if_false, add_zero, offScreen, decide_eq_true_eq, ha]
  · have ha : advancePipe speed p = { p with x := p.x - speed, passed := true } := by
      unfold advancePipe
      rw [hc, Bool.or_true]
    simp only [if_true, offScreen, decide_eq_true_eq, ha]

/-- The pipe loop run over the first `pre.length` pipes advances each of them, drops
the off-screen ones and adds the number of newly passed ones to the score. -/
theorem pipeLoop_append (speed : ℚ) (pre : List Pipe) :
    ∀ (suf : List Pipe) (score : ℤ),
      pipeLoop speed pre.length (pre ++ suf, score) =
        (advancePipes speed pre ++ suf, score + (pre.countP (newlyPassed speed) : ℕ)) := by
  induction pre using List.reverseRecOn with
  | nil => intro suf score; simp [pipeLoop, advancePipes]
  | append_singleton l p ih =>
    intro suf score
    have hget : (l ++ [p] ++ suf).get? l.length = some p := by
      rw [List.get?_eq_getElem?, List.append_assoc, List.getElem?_append_right (le_refl _)]
      simp
    have hlen : (l ++ [p]).length = l.length + 1 := by simp
    rw [hlen, pipeLoop_succ speed l.length _ score p hget]
    have herase : (l ++ [p] ++ suf).eraseIdx l.length = l ++ suf := by
      rw [List.append_assoc, List.eraseIdx_append_of_length_le (le_refl _)]
      simp
    have hset : (l ++ [p] ++ suf).set l.length (advancePipe speed p) =
        l ++ advancePipe speed p :: suf := by
      rw [List.append_assoc, List.set_append_right _ _ (le_refl _)]
      simp
    rw [herase, hset]
    cases ho : offScreen speed p <;> cases hc : newlyPassed speed p <;>
      simp only [Bool.false_eq_true, if_false, if_true] <;> rw [ih] <;>
      simp [advancePipes, List.filter_append, List.countP_append, ho, hc] <;> ring

/-- The pipe loop of `update` as a whole. -/
theorem pipesStep_eq (s : Game) :
    (pipesStep s).pipes = advancePipes s.pipeSpeed s.pipes ∧
      (pipesStep s).score = s.score + (s.pipes.countP (newlyPassed s.pipeSpeed) : ℕ) := by
  have h := pipeLoop_append s.pipeSpeed s.pipes [] s.score
  rw [List.append_nil, List.append_nil] at h
  unfold pipesStep
  dsimp only
  rw [h]
  exact ⟨rfl, rfl⟩

theorem spawnStep_physicsStep_pipes (r : ℚ) (s : Game) :
    (spawnStep r (physicsStep s)).pipes = (spawnStep r s).pipes := by
  unfold spawnStep
  rw [physicsStep_frame]
  have : (physicsStep s).spawnInterval = s.spawnInterval := rfl
  rw [this]
  split_ifs <;> rfl

theorem update_playing_pipes_eq (sin : ℚ → ℚ) (r : ℚ) (s : Game) (h : s.state = .playing) :
    (update sin r s).pipes = advancePipes s.pipeSpeed (pipesBeforeLoop r s) := by
  rw [update_playing_pipes sin r s h, (pipesStep_eq _).1]
  simp only [spawnStep_pipeSpeed, physicsStep_pipeSpeed, spawnStep_physicsStep_pipes]
  rfl

theorem update_playing_score_eq (sin : ℚ → ℚ) (r : ℚ) (s : Game) (h : s.state = .playing) :
    (update sin r s).score =
      s.score + ((pipesBeforeLoop r s).countP (newlyPassed s.pipeSpeed) : ℕ) := by
  rw [update_playing sin r s h]
  simp only [ceilingStep_score, groundStep_score, pipeCollisionStep_score]
  rw [(pipesStep_eq _).2]
  simp only [spawnStep_pipeSpeed, physicsStep_pipeSpeed, spawnStep_score, physicsStep_score,
    spawnStep_physicsStep_pipes]
  rfl

theorem newlyPassed_of_passed (speed : ℚ) (p : Pipe) (h : p.passed = true) :
    newlyPassed speed p = false := by
  unfold newlyPassed
  rw [h]
  rfl

/-- A pipe that the loop drops has its flag set or is counted in the same iteration. -/
theorem passed_or_counted_of_offScreen (speed : ℚ) (p : Pipe) (h : offScreen speed p = true) :
    p.passed = true ∨ newlyPassed speed p = true := by
  unfold offScreen at h
  unfold newlyPassed
  rw [bird_x_eq]
  cases hp : p.passed
  · right
    have h1 : p.x - speed + pipeW < -40 := by simpa using h
    have h2 : p.x - speed + pipeW < 120 := by linarith
    simp [h2]
  · left; rfl

/-- The loop neither loses an uncounted pipe nor counts one twice: the newly counted
pipes and the still uncounted survivors are the uncounted pipes it started with. -/
theorem advancePipes_conserves (speed : ℚ) (ps : List Pipe) :
    ps.countP (newlyPassed speed) + (advancePipes speed ps).countP (fun p => !p.passed) =
      ps.countP (fun p => !p.passed) := by
  induction ps with
  | nil => rfl
  | cons p l ih =>
    have hcons : advancePipes speed (p :: l) =
        (if offScreen speed p = true then [] else [advancePipe speed p]) ++
          advancePipes speed l := by
      unfold advancePipes
      cases ho : offScreen speed p <;> simp [List.filter_cons, ho]
    rw [hcons, List.countP_append, List.countP_cons, List.countP_cons]
    have hone : (if newlyPassed speed p = true then 1 else 0) +
        (if offScreen speed p = true then [] else [advancePipe speed p]).countP
          (fun p => !p.passed) = if (!p.passed) = true then 1 else 0 := by
      cases ho : offScreen speed p
      · cases hc : newlyPassed speed p <;> cases hp : p.passed <;>
          simp_all [advancePipe, newlyPassed]
      · rcases passed_or_counted_of_offScreen speed p ho with hp | hc
        · simp [hp, newlyPassed]
        · have hp : p.passed = false := by
            unfold newlyPassed at hc
            cases hp : p.passed
            · rfl
            · rw [hp] at hc; simp at hc
          simp [hp, hc]
    omega

/-- Over any number of updates one pipe is counted at most once in total, counting a
set flag as one earlier count, and exactly once if it is removed. -/
theorem countedOver_le_one (speed : ℚ) :
    ∀ (n : ℕ) (p : Pipe),
      countedOver speed n p + (if p.passed = true then 1 else 0) ≤ 1 ∧
        (removedWithin speed n p = true →
          countedOver speed n p + (if p.passed = true then 1 else 0) = 1)
  | 0, p => by
    constructor
    · simp only [countedOver]; split_ifs <;> omega
    · intro h; simp [removedWithin] at h
  | n + 1, p => by
    have ih := countedOver_le_one speed n (advancePipe speed p)
    have hflag : (advancePipe speed p).passed = (p.passed || newlyPassed speed p) := rfl
    rw [hflag] at ih
    simp only [countedOver, removedWithin, Bool.or_eq_true]
    cases ho : offScreen speed p
    · cases hp : p.passed
      · cases hc : newlyPassed speed p
        · simp only [hp, hc, Bool.or_false, Bool.false_eq_true, if_false, false_or, add_zero,
            zero_add] at ih ⊢
          exact ih
        · simp only [hp, hc, Bool.or_true, Bool.false_eq_true, if_false, if_true, false_or,
            add_zero] at ih ⊢
          exact ⟨by omega, fun h => by have := ih.2 h; omega⟩
      · have hc := newlyPassed_of_passed speed p hp
        simp only [hp, hc, Bool.or_false, Bool.false_eq_true, if_false, if_true, false_or,
          zero_add] at ih ⊢
        exact ih
    · rcases passed_or_counted_of_offScreen speed p ho with hp | hc
      · have hc := newlyPassed_of_passed speed p hp
        simp [hp, hc]
      · have hp : p.passed = false := by
          cases hp : p.passed
          · rfl
          · rw [newlyPassed_of_passed speed p hp] at hc; cases hc
        simp [hp, hc]

/-- C2: an update in playing mode raises the score by exactly the number of pipes
whose flag is not set and whose trailing edge has now passed the bird; a pipe whose
flag is set is not counted again; a pipe is removed only with its flag set or while it
is being counted; the update loses no uncounted pipe; and over any number of updates
one pipe is counted at most once, exactly once if it is removed. -/
theorem score_counts_each_pipe_once (sin : ℚ → ℚ) (r : ℚ) (s : Game)
    (h : s.state = .playing) (n : ℕ) (p : Pipe) :
    (update sin r s).score =
        s.score + ((pipesBeforeLoop r s).countP (newlyPassed s.pipeSpeed) : ℕ) ∧
      (update sin r s).pipes = advancePipes s.pipeSpeed (pipesBeforeLoop r s) ∧
      (p.passed = true → newlyPassed s.pipeSpeed p = false) ∧
      (offScreen s.pipeSpeed p = true → p.passed = true ∨ newlyPassed s.pipeSpeed p = true) ∧
      (update sin r s).score + ((update sin r s).pipes.countP (fun q => !q.passed) : ℕ) =
        s.score + ((pipesBeforeLoop r s).countP (fun q => !q.passed) : ℕ) ∧
      countedOver s.pipeSpeed n p + (if p.passed = true then 1 else 0) ≤ 1 ∧
      (removedWithin s.pipeSpeed n p = true →
        countedOver s.pipeSpeed n p + (if p.passed = true then 1 else 0) = 1) := by
  refine ⟨update_playing_score_eq sin r s h, update_playing_pipes_eq sin r s h,
    newlyPassed_of_passed s.pipeSpeed p, passed_or_counted_of_offScreen s.pipeSpeed p, ?_,
    (countedOver_le_one s.pipeSpeed n p).1, (countedOver_le_one s.pipeSpeed n p).2⟩
  rw [update_playing_score_eq sin r s h, update_playing_pipes_eq sin r s h]
  have hc := advancePipes_conserves s.pipeSpeed (pipesBeforeLoop r s)
  omega

/-- Witness of C2: in `beforePass` the second pipe passes the bird and is counted, the
first one, counted earlier, leaves the list. -/
theorem score_counts_each_pipe_once_witness :
    beforePass.state = .playing ∧
      (update (fun _ => 0) 0 beforePass).score =
        beforePass.score +
          ((pipesBeforeLoop 0 beforePass).countP (newlyPassed beforePass.pipeSpeed) : ℕ) :=
  ⟨rfl, (score_counts_each_pipe_once (fun _ => 0) 0 beforePass rfl 3
    { x := 43, top := 100, bottom := 440, passed := false }).1⟩

/-- The frame of `beforePass`, evaluated: score 2, one pipe left, its flag set. -/
theorem update_beforePass :
    (update (fun _ => 0) 0 beforePass).score = 2 ∧
      (update (fun _ => 0) 0 beforePass).pipes =
        [{ x := 43 - 22 / 10, top := 100, bottom := 440, passed := true }] := by
  decide!

/-! ## Spawn timing -/

@[simp] theorem togglePause_frame (s : Game) : (togglePause s).frame = s.frame := by
  unfold togglePause; split_ifs <;> rfl

@[simp] theorem togglePause_spawnInterval (s : Game) :
    (togglePause s).spawnInterval = s.spawnInterval := by
  unfold togglePause; split_ifs <;> rfl

theorem update_spawnInterval (sin : ℚ → ℚ) (r : ℚ) (s : Game) :
    (update sin r s).spawnInterval = s.spawnInterval := by
  rcases hs : s.state with _ | _ | _ | _
  · rw [update_menu sin r s hs]
  · rw [update_playing sin r s hs]
    unfold ceilingStep groundStep pipeCollisionStep pipesStep spawnStep spawnPipe physicsStep
    dsimp only
    split_ifs <;> rfl
  · rw [update_crashed sin r s hs]; split_ifs <;> rfl
  · rw [update_paused sin r s hs]

theorem update_pipes_of_not_playing (sin : ℚ → ℚ) (r : ℚ) (s : Game)
    (h : s.state ≠ .playing) : (update sin r s).pipes = s.pipes := by
  rcases hs : s.state with _ | _ | _ | _
  · rw [update_menu sin r s hs]
  · exact absurd hs h
  · rw [update_crashed sin r s hs]; split_ifs <;> rfl
  · rw [update_paused sin r s hs]

theorem pipesBeforeLoop_eq (r : ℚ) (s : Game) :
    pipesBeforeLoop r s =
      if (s.frame + 1) % s.spawnInterval = 0 then s.pipes ++ [freshPipe r s.gap]
      else s.pipes := by
  unfold pipesBeforeLoop spawnStep
  dsimp only
  split_ifs <;> rfl

/-- Along a sequence of inputs that does not end the run, the frame counter grows by
the number of updates, whatever the mode they run in, and the interval stays. -/
theorem run_frame (sin : ℚ → ℚ) :
    ∀ (inputs : List Input) (s : Game), sameRun sin inputs s = true →
      (run sin inputs s).frame = s.frame + frameCount inputs ∧
        (run sin inputs s).spawnInterval = s.spawnInterval
  | [], _, _ => ⟨rfl, rfl⟩
  | i :: is, s, h => by
    simp only [sameRun, Bool.and_eq_true, Bool.or_eq_true, decide_eq_true_eq] at h
    obtain ⟨hi, hrest⟩ := h
    obtain ⟨ih1, ih2⟩ := run_frame sin is (step sin s i) hrest
    have hrun : run sin (i :: is) s = run sin is (step sin s i) := rfl
    rw [hrun, ih1, ih2]
    cases i with
    | flap =>
      have hs : s.state = .playing ∨ s.state = .paused := by
        rcases hi with (hi | hi) | hi
        · exact absurd rfl hi
        · exact Or.inl hi
        · exact Or.inr hi
      show (flap s).frame + _ = _ ∧ (flap s).spawnInterval = _
      rcases hs with hs | hs
      · rw [flap_playing s hs]; exact ⟨rfl, rfl⟩
      · rw [flap_paused s hs]; exact ⟨rfl, rfl⟩
    | togglePause =>
      show (togglePause s).frame + _ = _ ∧ (togglePause s).spawnInterval = _
      rw [togglePause_frame, togglePause_spawnInterval]
      exact ⟨rfl, rfl⟩
    | update r =>
      show (update sin r s).frame + _ = _ ∧ (update sin r s).spawnInterval = _
      rw [update_frame, update_spawnInterval]
      refine ⟨?_, rfl⟩
      simp only [frameCount, List.countP_cons]
      simp
      omega

/-- C10 (counterexample): at hard difficulty (interval 95) the game is paused right
after the start for 94 frames; the first frame in playing mode then spawns a pipe,
95 frames after the start but on the first playing frame. -/
theorem pipe_spawned_on_first_playing_frame :
    hardStart.spawnInterval = 95 ∧
      playingFrames (fun _ => 0) pausedThenOneFrame hardStart = 1 ∧
      (run (fun _ => 0) pausedThenOneFrame hardStart).pipes.length = 1 := by
  decide!

/-- C10 (amended): along every sequence of flaps, pause toggles and updates that does
not end the run, the frame counter is the number of updates since `startGame`, paused
ones included, and the interval is unchanged; the next update, when it runs in playing
mode, spawns a pipe exactly when it brings the frame counter to a multiple of the
interval, and in any other mode it leaves the pipe list alone. -/
theorem spawn_follows_frame_counter (sin : ℚ → ℚ) (inputs : List Input) (s0 : Game) (r : ℚ)
    (h : sameRun sin inputs (startGame s0) = true) :
    (run sin inputs (startGame s0)).frame = frameCount inputs ∧
      (run sin inputs (startGame s0)).spawnInterval = s0.spawnInterval ∧
      ((run sin inputs (startGame s0)).state = .playing →
        (update sin r (run sin inputs (startGame s0))).pipes =
          advancePipes (run sin inputs (startGame s0)).pipeSpeed
            (if (frameCount inputs + 1) % s0.spawnInterval = 0 then
              (run sin inputs (startGame s0)).pipes ++
                [freshPipe r (run sin inputs (startGame s0)).gap]
            else (run sin inputs (startGame s0)).pipes)) ∧
      ((run sin inputs (startGame s0)).state ≠ .playing →
        (update sin r (run sin inputs (startGame s0))).pipes =
          (run sin inputs (startGame s0)).pipes) := by
  obtain ⟨hf, hi⟩ := run_frame sin inputs (startGame s0) h
  have hf0 : (startGame s0).frame = 0 := rfl
  have hi0 : (startGame s0).spawnInterval = s0.spawnInterval := rfl
  rw [hf0, Nat.zero_add] at hf
  rw [hi0] at hi
  refine ⟨hf, hi, ?_, update_pipes_of_not_playing sin r _⟩
  intro hp
  rw [update_playing_pipes_eq sin r _ hp, pipesBeforeLoop_eq, hf, hi]

/-- Witness of C10 (amended): the paused start of `pausedThenOneFrame`, up to the
resume. -/
theorem spawn_follows_frame_counter_witness :
    sameRun (fun _ => 0) ([.togglePause] ++ List.replicate 94 (.update 0) ++ [.togglePause])
        (startGame (setDifficulty .hard midRun)) = true ∧
      (run (fun _ => 0) ([.togglePause] ++ List.replicate 94 (.update 0) ++ [.togglePause])
        (startGame (setDifficulty .hard midRun))).frame =
          frameCount ([.togglePause] ++ List.replicate 94 (.update 0) ++ [.togglePause]) :=
  ⟨by decide!, (spawn_follows_frame_counter (fun _ => 0) _ (setDifficulty .hard midRun) 0
    (by decide!)).1⟩

end FloppyBird
